import Mathlib

/-!
Verification of the EigenVault operator's order-matching core.

The Rust source under `eigenvault/operator/src` is embedded shallowly:

* `matching/orderbook.rs` — `Order`, `OrderBook` and its operations.  The
  `BTreeMap<OrderedFloat, Vec<Order>>` price indices are modelled as
  association lists sorted by ascending key; `HashMap` indices as
  association lists with insert-replaces-key semantics.  `f64` prices and
  amounts are modelled as `ℚ`; `chrono` timestamps as `ℕ` seconds, with the
  current time passed explicitly to every operation that reads the clock.
* `matching/engine.rs` — `can_match`, the per-pool pairing loop
  `find_matches_in_pool`, and the mock `add_encrypted_order`.  The
  `Uuid::new_v4` match-id generator is modelled as a parameter assigning an
  id to the n-th match produced.
* `matching/privacy.rs` and `networking/encryption.rs` — the envelope logic
  of both encryption layers.  The external AES-GCM cipher, the serde_json
  serializer and the SHA-256 hasher are modelled as function parameters;
  everything the repository itself does (nonce layout, length checks,
  signature and timestamp gates, field plumbing) is embedded concretely.
* `networking/gossip.rs` — `GossipMessage`, the message cache,
  `select_gossip_targets`, `add_to_cache`, `handle_incoming_message` and
  `propagate_message`.  The `rand` shuffle behind `choose_multiple` is a
  function parameter assumed (where needed) to permute its input.
-/

namespace EigenVault

/-- `OrderType` from `matching/orderbook.rs`. -/
inductive OrderType where
  | buy
  | sell
deriving DecidableEq, Repr

/-- `OrderStatus` from `matching/orderbook.rs`. -/
inductive OrderStatus where
  | pending
  | partiallyFilled
  | filled
  | cancelled
  | expired
deriving DecidableEq, Repr

/-- `Order` from `matching/orderbook.rs`; `f64` amount/price as `ℚ`,
`u64` timestamps as `ℕ`. -/
structure Order where
  id : String
  trader : String
  pool_key : String
  order_type : OrderType
  amount : ℚ
  price : ℚ
  status : OrderStatus
  timestamp : ℕ
  deadline : ℕ
deriving DecidableEq, Repr

/-- `Order::is_expired`: `chrono::Utc::now().timestamp() as u64 > self.deadline`,
with the clock value `now` passed explicitly. -/
def Order.isExpired (o : Order) (now : ℕ) : Bool :=
  decide (now > o.deadline)

/-- `Order::is_active`: status is Pending or PartiallyFilled and not expired. -/
def Order.isActive (o : Order) (now : ℕ) : Bool :=
  (decide (o.status = OrderStatus.pending) || decide (o.status = OrderStatus.partiallyFilled))
    && !(o.isExpired now)

/-- Association-list lookup, the model of `HashMap::get` / `BTreeMap::get`. -/
def assocFind {α β : Type} [DecidableEq α] (m : List (α × β)) (k : α) : Option β :=
  match m with
  | [] => none
  | (k', v) :: rest => if k = k' then some v else assocFind rest k

/-- `HashMap::insert`: replaces any entry with the same key. -/
def assocSet {α β : Type} [DecidableEq α] (m : List (α × β)) (k : α) (v : β) :
    List (α × β) :=
  (k, v) :: m.filter (fun e => decide (e.1 ≠ k))

/-- `BTreeMap::insert` for the price indices: keys kept in ascending order. -/
def mapSet (m : List (ℚ × List Order)) (p : ℚ) (v : List Order) :
    List (ℚ × List Order) :=
  match m with
  | [] => [(p, v)]
  | (k, w) :: rest =>
    if p < k then (p, v) :: (k, w) :: rest
    else if p = k then (p, v) :: rest
    else (k, w) :: mapSet rest p v

/-- Stable insertion by timestamp, the effect of the stable
`sort_by(|a, b| a.timestamp.cmp(&b.timestamp))` on a level that was already
sorted before the new order was pushed at the end. -/
def insertByTs (o : Order) : List Order → List Order
  | [] => [o]
  | x :: xs => if o.timestamp ≤ x.timestamp then o :: x :: xs else x :: insertByTs o xs

/-- Stable sort of a price level by timestamp (`Vec::sort_by` is stable). -/
def sortByTs : List Order → List Order
  | [] => []
  | x :: xs => insertByTs x (sortByTs xs)

/-- `OrderBook` from `matching/orderbook.rs`: the two price-ordered sides,
the id index and the diagnostic order count. -/
structure OrderBook where
  pool_key : String
  buy_orders : List (ℚ × List Order)
  sell_orders : List (ℚ × List Order)
  orders_by_id : List (String × Order)
  total_orders : ℕ
deriving DecidableEq, Repr

/-- `OrderBook::new`. -/
def OrderBook.empty (pool : String) : OrderBook :=
  ⟨pool, [], [], [], 0⟩

/-- `OrderBook::add_order`: rejects an expired order with the
`Cannot add expired order` error, otherwise pushes the order on its side's
price level (kept timestamp-sorted), records it in the id index and bumps
the count. -/
def addOrder (book : OrderBook) (o : Order) (now : ℕ) : Except String OrderBook :=
  if o.isExpired now then
    Except.error ("Cannot add expired order: " ++ o.id)
  else
    let withSide :=
      match o.order_type with
      | OrderType.buy =>
        { book with
            buy_orders :=
              mapSet book.buy_orders o.price
                (sortByTs (((assocFind book.buy_orders o.price).getD []) ++ [o])) }
      | OrderType.sell =>
        { book with
            sell_orders :=
              mapSet book.sell_orders o.price
                (sortByTs (((assocFind book.sell_orders o.price).getD []) ++ [o])) }
    Except.ok
      { withSide with
          orders_by_id := assocSet withSide.orders_by_id o.id o,
          total_orders := withSide.total_orders + 1 }

/-- The price-level part of `OrderBook::remove_order`: retain orders with a
different id at the level and drop the level when it becomes empty. -/
def levelRemove (m : List (ℚ × List Order)) (p : ℚ) (orderId : String) :
    List (ℚ × List Order) :=
  match m with
  | [] => []
  | (k, v) :: rest =>
    if p = k then
      let v2 := v.filter (fun o => decide (o.id ≠ orderId))
      if v2.isEmpty then rest else (k, v2) :: rest
    else (k, v) :: levelRemove rest p orderId

/-- `OrderBook::remove_order`: removes the order from the id index and from
its price level, returning it when present. -/
def removeOrder (book : OrderBook) (orderId : String) : Option Order × OrderBook :=
  match assocFind book.orders_by_id orderId with
  | none => (none, book)
  | some o =>
    let core :=
      { book with
          orders_by_id := book.orders_by_id.filter (fun e => decide (e.1 ≠ orderId)),
          total_orders := book.total_orders - 1 }
    match o.order_type with
    | OrderType.buy =>
      (some o, { core with buy_orders := levelRemove book.buy_orders o.price orderId })
    | OrderType.sell =>
      (some o, { core with sell_orders := levelRemove book.sell_orders o.price orderId })

/-- `OrderBook::get_buy_orders`: iterate the buy side highest price first
and keep only active orders. -/
def getBuyOrders (book : OrderBook) (now : ℕ) : List Order :=
  book.buy_orders.reverse.flatMap (fun lvl => lvl.2.filter (fun o => o.isActive now))

/-- `OrderBook::get_sell_orders`: iterate the sell side lowest price first
and keep only active orders. -/
def getSellOrders (book : OrderBook) (now : ℕ) : List Order :=
  book.sell_orders.flatMap (fun lvl => lvl.2.filter (fun o => o.isActive now))

/-- `OrderBook::get_best_bid`: the largest buy price key, with no activity
filtering. -/
def getBestBid (book : OrderBook) : Option ℚ :=
  (book.buy_orders.map Prod.fst).getLast?

/-- `OrderBook::get_best_ask`: the smallest sell price key, with no activity
filtering. -/
def getBestAsk (book : OrderBook) : Option ℚ :=
  (book.sell_orders.map Prod.fst).head?

/-- `OrderBook::get_spread`. -/
def getSpread (book : OrderBook) : Option ℚ :=
  match getBestBid book, getBestAsk book with
  | some bid, some ask => some (ask - bid)
  | _, _ => none

/-- `OrderBook::get_orders_by_trader`: active orders of one trader from the
id index. -/
def getOrdersByTrader (book : OrderBook) (trader : String) (now : ℕ) : List Order :=
  (book.orders_by_id.filter
    (fun e => decide (e.2.trader = trader) && e.2.isActive now)).map Prod.snd

/-- `OrderBook::cleanup_expired_orders`: collect the ids with
`deadline <= current_time && is_active()`, then remove each; returns the
collected ids together with the resulting book.  (The source also stamps
the removed copy `Expired`, a local variable with no further effect.) -/
def cleanupExpiredOrders (book : OrderBook) (now : ℕ) : List String × OrderBook :=
  let expiredIds :=
    (book.orders_by_id.filter
      (fun e => decide (e.2.deadline ≤ now) && e.2.isActive now)).map Prod.fst
  (expiredIds, expiredIds.foldl (fun b oid => (removeOrder b oid).2) book)

/-- `DecryptedOrder` from `matching/privacy.rs`; the ciphertext is a byte
list. -/
structure DecryptedOrder where
  id : String
  trader : String
  pool_key : String
  order_type : OrderType
  amount : ℚ
  price : ℚ
  deadline : ℕ
  encrypted_data : List ℕ
deriving DecidableEq, Repr

/-- `MatchingEngine::add_encrypted_order` from `matching/engine.rs`: builds
a mock decrypted order from the order id alone (the source comments that
production code would decrypt with the operator key), pushes it on the
pending queue and always succeeds.  `order_id.len()` is the byte length,
`chars().take(8)` the first eight characters. -/
def addEncryptedOrder (now : ℕ) (pending : List DecryptedOrder)
    (orderId : String) (encryptedData : List ℕ) : List DecryptedOrder :=
  pending ++
    [{ id := orderId,
       trader := "trader_" ++ orderId.take 8,
       pool_key := "ETH_USDC_3000",
       order_type :=
         if orderId.utf8ByteSize % 2 = 0 then OrderType.buy else OrderType.buy,
       amount := 1000 + (orderId.utf8ByteSize : ℚ) * 100,
       price := 2000 + (orderId.utf8ByteSize : ℚ) * 10,
       deadline := now + 3600,
       encrypted_data := encryptedData }]

/-- `OrderMatch` from `matching/engine.rs`. -/
structure OrderMatch where
  match_id : String
  buy_order : Order
  sell_order : Order
  matched_price : ℚ
  matched_amount : ℚ
  timestamp : ℕ
  pool_key : String
deriving DecidableEq, Repr

/-- `MatchingEngine::can_match`: same pool, crossing prices, both Pending,
distinct traders, both deadlines strictly in the future. -/
def canMatch (now : ℕ) (b s : Order) : Bool :=
  decide (b.pool_key = s.pool_key) && decide (b.price ≥ s.price)
    && decide (b.status = OrderStatus.pending) && decide (s.status = OrderStatus.pending)
    && decide (b.trader ≠ s.trader)
    && decide (b.deadline > now) && decide (s.deadline > now)

/-- `calculate_match_price` and `calculate_match_amount` assembled into the
`OrderMatch` literal of `find_matches_in_pool`. -/
def mkOrderMatch (matchId : String) (now : ℕ) (b s : Order) : OrderMatch :=
  { match_id := matchId,
    buy_order := b,
    sell_order := s,
    matched_price := (b.price + s.price) / 2,
    matched_amount := min b.amount s.amount,
    timestamp := now,
    pool_key := b.pool_key }

/-- The (buy, sell) pairs the nested loop of `find_matches_in_pool` turns
into matches, in loop order. -/
def crossPairs (now : ℕ) (buys sells : List Order) : List (Order × Order) :=
  buys.flatMap (fun b => (sells.filter (fun s => canMatch now b s)).map (fun s => (b, s)))

/-- `MatchingEngine::find_matches_in_pool` on the two materialized order
lists: one match per crossing pair, ids drawn from the generator `newId`
(the model of `Uuid::new_v4`) in production order.  The source's early
return on an empty side produces the same (empty) list. -/
def findMatchesInPool (newId : ℕ → String) (now : ℕ) (buys sells : List Order) :
    List OrderMatch :=
  (crossPairs now buys sells).enum.map
    (fun p => mkOrderMatch (newId p.1) now p.2.1 p.2.2)

/-- The per-pool pass as `find_matches_in_pool` runs it: on the active
order lists of a pool's book. -/
def matchingPass (newId : ℕ → String) (now : ℕ) (book : OrderBook) : List OrderMatch :=
  findMatchesInPool newId now (getBuyOrders book now) (getSellOrders book now)

/-! ### Encryption layers (`matching/privacy.rs`, `networking/encryption.rs`)

The AES-GCM cipher, the serde_json serializer and the SHA-256 hasher are
external crates; they enter the embedding as function parameters
(`enc`/`dec`, `ser`/`deser`, `signer`).  The repository's own envelope
logic — nonce layout, length checks, the signature and timestamp gates and
the field plumbing — is embedded concretely. -/

/-- `SecureMessage` from `networking/encryption.rs`. -/
structure SecureMessage where
  message_id : String
  sender_id : String
  recipient_id : Option String
  encrypted_data : List ℕ
  nonce : List ℕ
  signature : List ℕ
  timestamp : ℕ
deriving DecidableEq, Repr

/-- `NetworkEncryption::verify_signature`: the mock check — nonempty and
exactly 32 bytes (the data argument is ignored by the mock but kept). -/
def verifySignature (_data sig : List ℕ) : Bool :=
  if sig.isEmpty then false else decide (sig.length = 32)

/-- `NetworkEncryption::encrypt_message`: serialize, encrypt under a fresh
nonce, sign the ciphertext and wrap the envelope (sender is the
placeholder "local_peer", recipient absent = broadcast). -/
def encryptMessage {α : Type} (ser : α → List ℕ) (enc : List ℕ → List ℕ → List ℕ)
    (signer : List ℕ → List ℕ) (newId : String) (nonce : List ℕ) (now : ℕ)
    (m : α) : SecureMessage :=
  ⟨newId, "local_peer", none, enc nonce (ser m), nonce, signer (enc nonce (ser m)), now⟩

/-- `NetworkEncryption::decrypt_message`: verify the signature, reject
messages older than one hour, decrypt with the carried nonce and
deserialize. -/
def decryptMessage {α : Type} (deser : List ℕ → Option α)
    (dec : List ℕ → List ℕ → Option (List ℕ)) (now : ℕ) (sm : SecureMessage) :
    Except String α :=
  if ¬ verifySignature sm.encrypted_data sm.signature = true then
    Except.error "Message signature verification failed"
  else if sm.timestamp + 3600 < now then
    Except.error "Message too old"
  else
    match dec sm.nonce sm.encrypted_data with
    | none => Except.error "Message decryption failed"
    | some pt =>
      match deser pt with
      | none => Except.error "Message deserialization failed"
      | some m => Except.ok m

/-- `EncryptedOrderData` from `matching/privacy.rs`. -/
structure EncryptedOrderData where
  trader : String
  pool_key : String
  order_type : OrderType
  amount : ℚ
  price : ℚ
  deadline : ℕ
  nonce : List ℕ
  commitment : String
deriving DecidableEq, Repr

/-- `EncryptionManager::encrypt_order`: serialize and encrypt the order
data under a fresh 12-byte nonce, then prepend the nonce to the
ciphertext. -/
def encryptOrder (ser : EncryptedOrderData → List ℕ)
    (enc : List ℕ → List ℕ → List ℕ) (nonce : List ℕ)
    (od : EncryptedOrderData) : List ℕ :=
  nonce ++ enc nonce (ser od)

/-- `EncryptionManager::decrypt_order`: reject inputs shorter than the
12-byte nonce, split nonce and ciphertext, decrypt, deserialize and wire
the recovered fields (plus the original ciphertext) into a
`DecryptedOrder` under the supplied order id. -/
def decryptOrder (deser : List ℕ → Option EncryptedOrderData)
    (dec : List ℕ → List ℕ → Option (List ℕ)) (encryptedData : List ℕ)
    (orderId : String) : Except String DecryptedOrder :=
  if encryptedData.length < 12 then
    Except.error "Invalid encrypted data length"
  else
    match dec (encryptedData.take 12) (encryptedData.drop 12) with
    | none => Except.error "Decryption failed"
    | some pt =>
      match deser pt with
      | none => Except.error "Order deserialization failed"
      | some od =>
        Except.ok
          ⟨orderId, od.trader, od.pool_key, od.order_type, od.amount, od.price,
            od.deadline, encryptedData⟩

/-! ### Gossip protocol (`networking/gossip.rs`) -/

/-- `MessageType` from `networking/gossip.rs`. -/
inductive MessageType where
  | orderAnnouncement
  | taskNotification
  | proofShare
  | peerDiscovery
  | heartbeat
  | custom (tag : String)
deriving DecidableEq, Repr

/-- `GossipMessage`; `u32` ttl as `ℕ`, byte vectors as `List ℕ`. -/
structure GossipMessage where
  message_id : String
  message_type : MessageType
  sender_id : String
  timestamp : ℕ
  ttl : ℕ
  payload : List ℕ
  signature : List ℕ
deriving DecidableEq, Repr

/-- `MessageState`: the cache entry kept per message id. -/
structure MessageState where
  message : GossipMessage
  first_seen : ℕ
  propagation_count : ℕ
  peers_sent_to : List String
deriving DecidableEq, Repr

/-- `GossipProtocol`'s mutable state: the peer ids (the `HashMap` keys —
the `PeerInfo` values play no role in the embedded operations), the
message cache and the last-cleanup instant. -/
structure GossipState where
  local_peer_id : String
  peers : List String
  message_cache : List (String × MessageState)
  last_cleanup : ℕ
deriving DecidableEq, Repr

/-- `(n as f64).sqrt().ceil() as usize`: the least `k` with `n ≤ k * k`
(exact for every peer count an `f64` represents faithfully). -/
def ceilSqrt (n : ℕ) : ℕ :=
  ((List.range (n + 1)).filter (fun k => decide (n ≤ k * k))).headD n

/-- `GossipProtocol::select_gossip_targets`: `sqrt(n)` rounded up, clamped
to `[1, n]`, drawn from the peers other than the message's sender.  The
random `choose_multiple` is modelled by `shuffle` followed by `take`. -/
def selectGossipTargets (shuffle : List String → List String)
    (st : GossipState) (senderId : String) : List String :=
  if (st.peers.filter (fun p => decide (p ≠ senderId))).isEmpty then []
  else
    (shuffle (st.peers.filter (fun p => decide (p ≠ senderId)))).take
      (min (max (ceilSqrt st.peers.length) 1) st.peers.length)

/-- `GossipProtocol::cleanup_message_cache`: purge entries first seen more
than one hour ago (`Instant` subtraction saturates like `ℕ`). -/
def cleanupMessageCache (now : ℕ) (cache : List (String × MessageState)) :
    List (String × MessageState) :=
  cache.filter (fun e => decide (¬ now - e.2.first_seen > 3600))

/-- `GossipProtocol::add_to_cache`: insert a fresh `MessageState`, then run
the periodic cleanup when more than five minutes have passed since the
last one. -/
def addToCache (now : ℕ) (st : GossipState) (msg : GossipMessage) : GossipState :=
  let st1 :=
    { st with message_cache := assocSet st.message_cache msg.message_id ⟨msg, now, 0, []⟩ }
  if now - st.last_cleanup > 300 then
    { st1 with message_cache := cleanupMessageCache now st1.message_cache,
               last_cleanup := now }
  else st1

/-- The cache bookkeeping of `GossipProtocol::send_gossip_message`: when
the message is cached, record the peer and bump the propagation count.
(The network emission is collected by `sendAll`.) -/
def sendGossipMessage (st : GossipState) (peerId : String) (msg : GossipMessage) :
    GossipState :=
  { st with
      message_cache := st.message_cache.map (fun e =>
        if e.1 = msg.message_id then
          (e.1, { e.2 with peers_sent_to := e.2.peers_sent_to ++ [peerId],
                           propagation_count := e.2.propagation_count + 1 })
        else e) }

/-- A loop of `send_gossip_message` calls over a target list, returning the
final state and the emitted `(peer, message)` transmissions in order. -/
def sendAll (msg : GossipMessage) : GossipState → List String →
    GossipState × List (String × GossipMessage)
  | st, [] => (st, [])
  | st, p :: ps =>
    let st1 := sendGossipMessage st p msg
    let r := sendAll msg st1 ps
    (r.1, (p, msg) :: r.2)

/-- `GossipProtocol::verify_message_signature`: the mock check — nonempty
and exactly 32 bytes. -/
def verifyMessageSignature (msg : GossipMessage) : Bool :=
  if msg.signature.isEmpty then false else decide (msg.signature.length = 32)

/-- `GossipProtocol::handle_incoming_message`: drop duplicates, invalid
signatures and `ttl == 0`; otherwise cache, and when `ttl > 1` forward a
copy with `ttl - 1` to the selected targets other than the sender.
Returns the new state, whether the message was newly processed, and the
emitted transmissions. -/
def handleIncomingMessage (shuffle : List String → List String) (now : ℕ)
    (st : GossipState) (msg : GossipMessage) :
    GossipState × Bool × List (String × GossipMessage) :=
  if (assocFind st.message_cache msg.message_id).isSome then (st, false, [])
  else if ¬ verifyMessageSignature msg then (st, false, [])
  else if msg.ttl = 0 then (st, false, [])
  else
    let st1 := addToCache now st msg
    if 1 < msg.ttl then
      let pm := { msg with ttl := msg.ttl - 1 }
      let targets := selectGossipTargets shuffle st1 pm.sender_id
      let r := sendAll pm st1 (targets.filter (fun p => decide (p ≠ msg.sender_id)))
      (r.1, true, r.2)
    else (st1, true, [])

/-- `GossipProtocol::create_gossip_message`: wraps a serialized payload and
its signature (both produced by external collaborators, passed as data)
with the local sender id and the fixed hop budget `ttl = 5`. -/
def createGossipMessage (newId : String) (now : ℕ) (localId : String)
    (mtype : MessageType) (payload signature : List ℕ) : GossipMessage :=
  ⟨newId, mtype, localId, now, 5, payload, signature⟩

/-- `GossipProtocol::propagate_message`: create, cache, select targets and
send to each. -/
def propagateMessage (shuffle : List String → List String) (newId : String)
    (now : ℕ) (st : GossipState) (mtype : MessageType)
    (payload signature : List ℕ) :
    GossipState × List (String × GossipMessage) :=
  let gm := createGossipMessage newId now st.local_peer_id mtype payload signature
  let st1 := addToCache now st gm
  let targets := selectGossipTargets shuffle st1 gm.sender_id
  sendAll gm st1 targets

/-- One relay hop: some operator, in some state, forwards `m'` upon
receiving `m`. -/
def RelayStep (m m' : GossipMessage) : Prop :=
  ∃ shuffle now st p, (p, m') ∈ (handleIncomingMessage shuffle now st m).2.2

/-! ### Concrete values used to instantiate the theorems -/

/-- An empty gossip state. -/
def gossipSt0 : GossipState := ⟨"local", [], [], 0⟩

/-- A gossip state whose only known peer is the local/sending peer "A". -/
def gossipStSelf : GossipState := ⟨"A", ["A"], [], 0⟩

/-- A gossip state with two peers. -/
def gossipSt2 : GossipState := ⟨"local", ["p", "q"], [], 0⟩

/-- A well-signed message with id "A" and ttl 1. -/
def gmA : GossipMessage :=
  ⟨"A", MessageType.heartbeat, "s", 0, 1, [], List.replicate 32 0⟩

/-- A well-signed message with id "B" and ttl 1. -/
def gmB : GossipMessage :=
  ⟨"B", MessageType.heartbeat, "s", 0, 1, [], List.replicate 32 0⟩

/-- A well-signed message with ttl 0. -/
def gmZ : GossipMessage :=
  ⟨"Z", MessageType.heartbeat, "s", 0, 0, [], List.replicate 32 0⟩

/-- A well-signed message with ttl 2. -/
def gm2 : GossipMessage :=
  ⟨"M2", MessageType.heartbeat, "s", 0, 2, [], List.replicate 32 0⟩

/-- The one-hop relay of `gm2`: the same message with ttl 1. -/
def gm2fwd : GossipMessage :=
  ⟨"M2", MessageType.heartbeat, "s", 0, 1, [], List.replicate 32 0⟩

/-- The state after `gossipSt0` processes `gmA` at time 0. -/
def gossipStA : GossipState :=
  (handleIncomingMessage (fun l => l) 0 gossipSt0 gmA).1

/-- A concrete order payload for the privacy-layer round trip. -/
def wOd : EncryptedOrderData :=
  ⟨"alice", "ETH_USDC_3000", OrderType.buy, 100, 2000, 3600,
    List.replicate 12 7, "c"⟩

/-- A buy order crossing `w1sell` (pool "P", price 10, Pending, deadline 100). -/
def w1buy : Order :=
  ⟨"b1", "t1", "P", OrderType.buy, 5, 10, OrderStatus.pending, 0, 100⟩

/-- A sell order crossed by `w1buy` (pool "P", price 9, Pending, deadline 100). -/
def w1sell : Order :=
  ⟨"s1", "t2", "P", OrderType.sell, 7, 9, OrderStatus.pending, 0, 100⟩

/-- A second crossing sell order from a third trader (price 8). -/
def w1sell2 : Order :=
  ⟨"s2", "t3", "P", OrderType.sell, 6, 8, OrderStatus.pending, 0, 100⟩

/-- A Pending buy order at price 100 whose deadline 5 is strictly in the
past at time 10. -/
def cex2order : Order :=
  ⟨"o1", "t1", "P", OrderType.buy, 1, 100, OrderStatus.pending, 0, 5⟩

/-- The book holding `w1buy`, `w1sell` and `w1sell2`, built by `add_order`
at time 0. -/
def c10book : Except String OrderBook :=
  (addOrder (OrderBook.empty "P") w1buy 0).bind
    (fun bk => (addOrder bk w1sell 0).bind (fun bk2 => addOrder bk2 w1sell2 0))

/-! ### Helper lemmas -/

theorem mem_crossPairs {now : ℕ} {buys sells : List Order} {b s : Order} :
    (b, s) ∈ crossPairs now buys sells ↔
      b ∈ buys ∧ s ∈ sells ∧ canMatch now b s = true := by
  constructor
  · intro h
    rcases List.mem_flatMap.1 h with ⟨a, ha, hm⟩
    rcases List.mem_map.1 hm with ⟨x, hx, he⟩
    rcases List.mem_filter.1 hx with ⟨hs, hc⟩
    cases he
    exact ⟨ha, hs, hc⟩
  · rintro ⟨hb, hs, hc⟩
    exact List.mem_flatMap.2 ⟨b, hb, List.mem_map.2 ⟨s, List.mem_filter.2 ⟨hs, hc⟩, rfl⟩⟩

theorem mem_findMatchesInPool {newId : ℕ → String} {now : ℕ}
    {buys sells : List Order} {m : OrderMatch} :
    m ∈ findMatchesInPool newId now buys sells ↔
      ∃ i p, (i, p) ∈ (crossPairs now buys sells).enum ∧
        m = mkOrderMatch (newId i) now p.1 p.2 := by
  constructor
  · intro h
    rcases List.mem_map.1 h with ⟨q, hq, he⟩
    exact ⟨q.1, q.2, hq, he.symm⟩
  · rintro ⟨i, p, hp, rfl⟩
    exact List.mem_map.2 ⟨(i, p), hp, rfl⟩

theorem findMatchesInPool_sound {newId : ℕ → String} {now : ℕ}
    {buys sells : List Order} {m : OrderMatch}
    (h : m ∈ findMatchesInPool newId now buys sells) :
    m.buy_order ∈ buys ∧ m.sell_order ∈ sells ∧
      canMatch now m.buy_order m.sell_order = true ∧
      m.matched_price = (m.buy_order.price + m.sell_order.price) / 2 ∧
      m.matched_amount = min m.buy_order.amount m.sell_order.amount := by
  rcases mem_findMatchesInPool.1 h with ⟨i, p, hp, rfl⟩
  have hmem : p ∈ crossPairs now buys sells := by
    rcases List.mem_enum hp with ⟨hi, hx⟩
    exact hx ▸ List.getElem_mem hi
  rcases mem_crossPairs.1 (show (p.1, p.2) ∈ crossPairs now buys sells from hmem) with
    ⟨hb, hs, hc⟩
  exact ⟨hb, hs, hc, rfl, rfl⟩

theorem findMatchesInPool_complete {newId : ℕ → String} {now : ℕ}
    {buys sells : List Order} {b s : Order}
    (hb : b ∈ buys) (hs : s ∈ sells) (hc : canMatch now b s = true) :
    ∃ m ∈ findMatchesInPool newId now buys sells,
      m.buy_order = b ∧ m.sell_order = s := by
  have hmem : (b, s) ∈ crossPairs now buys sells := mem_crossPairs.2 ⟨hb, hs, hc⟩
  have hmem2 : (b, s) ∈ (crossPairs now buys sells).enum.map Prod.snd := by
    rw [List.enum_map_snd]; exact hmem
  rcases List.mem_map.1 hmem2 with ⟨q, hq, he⟩
  refine ⟨mkOrderMatch (newId q.1) now q.2.1 q.2.2,
    List.mem_map.2 ⟨q, hq, rfl⟩, ?_, ?_⟩
  · show q.2.1 = b
    rw [he]
  · show q.2.2 = s
    rw [he]

theorem canMatch_iff {now : ℕ} {b s : Order} :
    canMatch now b s = true ↔
      b.pool_key = s.pool_key ∧ s.price ≤ b.price ∧
        b.status = OrderStatus.pending ∧ s.status = OrderStatus.pending ∧
        b.trader ≠ s.trader ∧ now < b.deadline ∧ now < s.deadline := by
  simp [canMatch, ge_iff_le, gt_iff_lt, and_assoc]

theorem mem_getBuyOrders_active {book : OrderBook} {now : ℕ} {o : Order}
    (h : o ∈ getBuyOrders book now) : o.isActive now = true := by
  rcases List.mem_flatMap.1 h with ⟨lvl, _, hmem⟩
  exact (List.mem_filter.1 hmem).2

theorem mem_getSellOrders_active {book : OrderBook} {now : ℕ} {o : Order}
    (h : o ∈ getSellOrders book now) : o.isActive now = true := by
  rcases List.mem_flatMap.1 h with ⟨lvl, _, hmem⟩
  exact (List.mem_filter.1 hmem).2

theorem mem_getOrdersByTrader_active {book : OrderBook} {trader : String}
    {now : ℕ} {o : Order}
    (h : o ∈ getOrdersByTrader book trader now) : o.isActive now = true := by
  rcases List.mem_map.1 h with ⟨e, he, rfl⟩
  have h2 := (List.mem_filter.1 he).2
  rw [Bool.and_eq_true] at h2
  exact h2.2

theorem isActive_false_of_deadline_lt {o : Order} {now : ℕ}
    (h : o.deadline < now) : o.isActive now = false := by
  simp [Order.isActive, Order.isExpired, h]

theorem sendAll_sends (msg : GossipMessage) :
    ∀ (ps : List String) (st : GossipState),
      (sendAll msg st ps).2 = ps.map (fun p => (p, msg)) := by
  intro ps
  induction ps with
  | nil => intro st; rfl
  | cons p ps ih => intro st; simp [sendAll, ih]

theorem assocFind_isSome_map_entry (g : MessageState → MessageState) (mid : String) :
    ∀ (cache : List (String × MessageState)) (k : String),
      (assocFind (cache.map (fun e => if e.1 = mid then (e.1, g e.2) else e)) k).isSome
        = (assocFind cache k).isSome := by
  intro cache
  induction cache with
  | nil => intro k; rfl
  | cons e rest ih =>
    obtain ⟨k', v⟩ := e
    intro k
    simp only [List.map_cons]
    by_cases h : k' = mid
    · rw [if_pos (show (k', v).1 = mid from h)]
      by_cases hk : k = k'
      · simp [assocFind, hk]
      · simp [assocFind, hk, ih k]
    · rw [if_neg (show ¬ (k', v).1 = mid from h)]
      by_cases hk : k = k'
      · simp [assocFind, hk]
      · simp [assocFind, hk, ih k]

theorem sendGossipMessage_lookup_isSome (st : GossipState) (p : String)
    (msg : GossipMessage) (k : String) :
    (assocFind (sendGossipMessage st p msg).message_cache k).isSome
      = (assocFind st.message_cache k).isSome := by
  exact assocFind_isSome_map_entry
    (fun s => { s with peers_sent_to := s.peers_sent_to ++ [p],
                       propagation_count := s.propagation_count + 1 })
    msg.message_id st.message_cache k

theorem sendAll_lookup_isSome (msg : GossipMessage) (k : String) :
    ∀ (ps : List String) (st : GossipState),
      (assocFind st.message_cache k).isSome = true →
      (assocFind (sendAll msg st ps).1.message_cache k).isSome = true := by
  intro ps
  induction ps with
  | nil => intro st h; exact h
  | cons p ps ih =>
    intro st h
    show (assocFind (sendAll msg (sendGossipMessage st p msg) ps).1.message_cache k).isSome
      = true
    exact ih _ (by rw [sendGossipMessage_lookup_isSome]; exact h)

theorem addToCache_lookup_self (now : ℕ) (st : GossipState) (msg : GossipMessage) :
    (assocFind (addToCache now st msg).message_cache msg.message_id).isSome = true := by
  unfold addToCache
  by_cases h : now - st.last_cleanup > 300 <;>
    simp [h, cleanupMessageCache, assocSet, List.filter_cons, assocFind, Nat.sub_self]

theorem handleIncoming_dup (shuffle : List String → List String) (now : ℕ)
    (st : GossipState) (msg : GossipMessage)
    (h : (assocFind st.message_cache msg.message_id).isSome = true) :
    handleIncomingMessage shuffle now st msg = (st, false, []) := by
  simp [handleIncomingMessage, h]

theorem handleIncoming_true_cache {shuffle : List String → List String} {now : ℕ}
    {st st' : GossipState} {msg : GossipMessage}
    {sends : List (String × GossipMessage)}
    (h : handleIncomingMessage shuffle now st msg = (st', true, sends)) :
    (assocFind st'.message_cache msg.message_id).isSome = true := by
  unfold handleIncomingMessage at h
  by_cases h1 : (assocFind st.message_cache msg.message_id).isSome = true
  · simp [h1] at h
  · by_cases h2 : verifyMessageSignature msg = true
    · by_cases h3 : msg.ttl = 0
      · simp [h1, h2, h3] at h
      · by_cases h4 : 1 < msg.ttl
        · simp [h1, h2, h3, h4, Prod.ext_iff] at h
          rcases h with ⟨hst, -, -⟩
          rw [← hst]
          exact sendAll_lookup_isSome _ _ _ _ (addToCache_lookup_self now st msg)
        · simp [h1, h2, h3, h4, Prod.ext_iff] at h
          rcases h with ⟨hst, -⟩
          rw [← hst]
          exact addToCache_lookup_self now st msg
    · simp [h1, h2] at h

theorem handleIncoming_sends_spec (shuffle : List String → List String) (now : ℕ)
    (st : GossipState) (msg : GossipMessage) :
    (handleIncomingMessage shuffle now st msg).2.2 = [] ∨
    (1 < msg.ttl ∧
      (handleIncomingMessage shuffle now st msg).2.2 =
        ((selectGossipTargets shuffle (addToCache now st msg) msg.sender_id).filter
            (fun p => decide (p ≠ msg.sender_id))).map
          (fun p => (p, { msg with ttl := msg.ttl - 1 }))) := by
  unfold handleIncomingMessage
  by_cases h1 : (assocFind st.message_cache msg.message_id).isSome = true
  · left; simp [h1]
  · by_cases h2 : verifyMessageSignature msg = true
    · by_cases h3 : msg.ttl = 0
      · left; simp [h1, h2, h3]
      · by_cases h4 : 1 < msg.ttl
        · right
          refine ⟨h4, ?_⟩
          simp [h1, h2, h3, h4, sendAll_sends]
        · left; simp [h1, h2, h3, h4]
    · left; simp [h1, h2]

theorem relayStep_ttl {m m' : GossipMessage} (h : RelayStep m m') :
    m'.ttl + 1 = m.ttl ∧ 2 ≤ m.ttl := by
  obtain ⟨sh, now, st, p, hp⟩ := h
  rcases handleIncoming_sends_spec sh now st m with hvac | ⟨h2, hs⟩
  · rw [hvac] at hp
    cases hp
  · rw [hs] at hp
    rcases List.mem_map.1 hp with ⟨q, -, he⟩
    have hm : m' = { m with ttl := m.ttl - 1 } := (congrArg Prod.snd he).symm
    have : m'.ttl = m.ttl - 1 := by rw [hm]
    omega

theorem relay_chain_length : ∀ (l : List GossipMessage) (m : GossipMessage),
    List.Chain' RelayStep (m :: l) → l.length + 1 ≤ max m.ttl 1 := by
  intro l
  induction l with
  | nil => intro m _; simp
  | cons m' l ih =>
    intro m hc
    rw [List.chain'_cons] at hc
    obtain ⟨hstep, hc2⟩ := hc
    obtain ⟨h1a, h1b⟩ := relayStep_ttl hstep
    have h2 := ih m' hc2
    simp only [List.length_cons] at *
    omega

/-! ### Claims -/

/-- C1: in a matching pass, a presented (buy, sell) pair produces a match
iff the orders share a pool, the buy price is at least the sell price, both
are Pending, the traders differ and both deadlines are strictly in the
future; and every produced match carries the mid-point price and the
minimum amount. -/
theorem claim1_matching_pass (newId : ℕ → String) (now : ℕ) (buys sells : List Order) :
    (∀ b ∈ buys, ∀ s ∈ sells,
      ((∃ m ∈ findMatchesInPool newId now buys sells,
          m.buy_order = b ∧ m.sell_order = s) ↔
        (b.pool_key = s.pool_key ∧ s.price ≤ b.price ∧
          b.status = OrderStatus.pending ∧ s.status = OrderStatus.pending ∧
          b.trader ≠ s.trader ∧ now < b.deadline ∧ now < s.deadline))) ∧
    (∀ m ∈ findMatchesInPool newId now buys sells,
      m.matched_price = (m.buy_order.price + m.sell_order.price) / 2 ∧
      m.matched_amount = min m.buy_order.amount m.sell_order.amount) := by
  constructor
  · intro b hb s hs
    rw [← canMatch_iff]
    constructor
    · rintro ⟨m, hm, hbm, hsm⟩
      have h := (findMatchesInPool_sound hm).2.2.1
      rw [hbm, hsm] at h
      exact h
    · intro hc
      exact findMatchesInPool_complete hb hs hc
  · intro m hm
    exact ⟨(findMatchesInPool_sound hm).2.2.2.1, (findMatchesInPool_sound hm).2.2.2.2⟩

/-- C1 witness: one crossing pair of the concrete orders `w1buy`, `w1sell`
produces a match. -/
theorem claim1_matching_pass_witness :
    ∃ m ∈ findMatchesInPool (fun _ => "m") 0 [w1buy] [w1sell],
      m.buy_order = w1buy ∧ m.sell_order = w1sell :=
  ((claim1_matching_pass (fun _ => "m") 0 [w1buy] [w1sell]).1
      w1buy (by decide) w1sell (by decide)).mpr (by decide)

/-- C2 counterexample: at time 10 the only resident buy order is inactive
(its deadline 5 has passed), the active-order query returns nothing — yet
`get_best_bid` still reports that order's price, so an inactive order's
price does determine `best_bid`, refuting the claim. -/
theorem claim2_counterexample :
    cex2order.isActive 10 = false ∧
    (addOrder (OrderBook.empty "P") cex2order 0).map
        (fun bk => (getBestBid bk, getBuyOrders bk 10)) =
      Except.ok (some 100, ([] : List Order)) := by
  exact ⟨by decide, rfl⟩

/-- C2 amended: the order-list queries (`get_buy_orders`,
`get_sell_orders`, `get_orders_by_trader`) and the matching pass never
surface an inactive order, while `best_bid`/`best_ask`/`spread` are taken
from the raw extremal price levels with no activity filtering. -/
theorem claim2_amended (book : OrderBook) (trader : String)
    (newId : ℕ → String) (now : ℕ) :
    (∀ o ∈ getBuyOrders book now, o.isActive now = true) ∧
    (∀ o ∈ getSellOrders book now, o.isActive now = true) ∧
    (∀ o ∈ getOrdersByTrader book trader now, o.isActive now = true) ∧
    (∀ m ∈ matchingPass newId now book,
      m.buy_order.isActive now = true ∧ m.sell_order.isActive now = true) := by
  refine ⟨fun o ho => mem_getBuyOrders_active ho,
          fun o ho => mem_getSellOrders_active ho,
          fun o ho => mem_getOrdersByTrader_active ho,
          fun m hm => ?_⟩
  have h := findMatchesInPool_sound hm
  exact ⟨mem_getBuyOrders_active h.1, mem_getSellOrders_active h.2.1⟩

/-- C2 amended, witness: a concrete active order surfaces with its active
flag true. -/
theorem claim2_amended_witness :
    w1buy.isActive 0 = true :=
  (claim2_amended ⟨"P", [((10 : ℚ), [w1buy])], [], [("b1", w1buy)], 1⟩
      "t1" (fun _ => "m") 0).1 w1buy (by decide)

/-- C3 (code bug): with a Pending order whose deadline 5 is strictly past
at time 10, `cleanup_expired_orders` collects nothing — the guard
`deadline <= now && is_active()` is false because `is_active()` is already
false for a strictly expired order — so it returns no ids and the order
stays in the id index and in the buy price level. -/
theorem claim3_cleanup_keeps_strictly_expired :
    (addOrder (OrderBook.empty "P") cex2order 0).map
        (fun bk =>
          ((cleanupExpiredOrders bk 10).1,
            assocFind (cleanupExpiredOrders bk 10).2.orders_by_id "o1",
            getBestBid (cleanupExpiredOrders bk 10).2)) =
      Except.ok ([], some cex2order, some 100) := by
  rfl

/-- C8: adding an order whose deadline is strictly before the current time
fails with the expired-order error, producing no new book, and such an
order never appears in the active-order queries. -/
theorem claim8_expired_add_rejected (book : OrderBook) (o : Order) (now : ℕ)
    (h : o.deadline < now) :
    addOrder book o now = Except.error ("Cannot add expired order: " ++ o.id) ∧
    o ∉ getBuyOrders book now ∧ o ∉ getSellOrders book now := by
  have hexp : o.isExpired now = true := by
    simp [Order.isExpired, h]
  refine ⟨by simp [addOrder, hexp], ?_, ?_⟩
  · intro hmem
    have hact := mem_getBuyOrders_active hmem
    rw [isActive_false_of_deadline_lt h] at hact
    exact Bool.noConfusion hact
  · intro hmem
    have hact := mem_getSellOrders_active hmem
    rw [isActive_false_of_deadline_lt h] at hact
    exact Bool.noConfusion hact

/-- C8 witness: the concrete expired order `cex2order` at time 10. -/
theorem claim8_expired_add_rejected_witness :
    addOrder (OrderBook.empty "P") cex2order 10 =
        Except.error ("Cannot add expired order: " ++ cex2order.id) ∧
      cex2order ∉ getBuyOrders (OrderBook.empty "P") 10 ∧
      cex2order ∉ getSellOrders (OrderBook.empty "P") 10 :=
  claim8_expired_add_rejected (OrderBook.empty "P") cex2order 10 (by decide)

/-- C10: a single pass over one pool can return two matches holding the
same buy order: with one buy crossing two sells from distinct traders, the
pairing loop pairs every crossing combination without consuming matched
orders. -/
theorem claim10_order_in_two_matches :
    c10book.map (fun bk =>
        (matchingPass (fun n => toString n) 0 bk).map
          (fun m => (m.buy_order.id, m.sell_order.id))) =
      Except.ok [("b1", "s2"), ("b1", "s1")] := by
  rfl

/-- C5 counterexample: `handle_incoming` is not idempotent per message_id
over arbitrary subsequent calls.  Message "A" is processed (true); handling
a fresh message "B" an hour later triggers the periodic cache cleanup which
evicts "A"; a repeat delivery of "A" is then processed again (true), where
the claim demands false. -/
theorem claim5_counterexample :
    (handleIncomingMessage (fun l => l) 0 gossipSt0 gmA).2.1 = true ∧
    (handleIncomingMessage (fun l => l) 4000
        (handleIncomingMessage (fun l => l) 4000 gossipStA gmB).1 gmA).2.1 = true := by
  decide

/-- C5 amended: after `handle_incoming` newly processes a message, its id
is cached, and any call — in any state whose cache still holds that id —
with a message carrying the same id returns false, leaves the state
unchanged and sends nothing. -/
theorem claim5_idempotent_while_cached (shuffle : List String → List String)
    (now : ℕ) (st : GossipState) (msg : GossipMessage) (st' : GossipState)
    (sends : List (String × GossipMessage))
    (h : handleIncomingMessage shuffle now st msg = (st', true, sends)) :
    (assocFind st'.message_cache msg.message_id).isSome = true ∧
    ∀ (st2 : GossipState) (shuffle2 : List String → List String) (now2 : ℕ)
      (msg2 : GossipMessage), msg2.message_id = msg.message_id →
      (assocFind st2.message_cache msg.message_id).isSome = true →
      handleIncomingMessage shuffle2 now2 st2 msg2 = (st2, false, []) := by
  refine ⟨handleIncoming_true_cache h, ?_⟩
  intro st2 shuffle2 now2 msg2 hid hc
  exact handleIncoming_dup shuffle2 now2 st2 msg2 (by rw [hid]; exact hc)

/-- C5 amended, witness: after "A" is processed into `gossipStA`, an
immediate repeat delivery of "A" is a no-op. -/
theorem claim5_idempotent_while_cached_witness :
    handleIncomingMessage (fun l => l) 77 gossipStA gmA = (gossipStA, false, []) := by
  have h5 := claim5_idempotent_while_cached (fun l => l) 0 gossipSt0 gmA
    gossipStA [] (by decide)
  exact h5.2 gossipStA (fun l => l) 77 gmA rfl h5.1

/-- C6: a ttl-0 message is dropped with no state change and no
retransmission; a ttl-1 message sends nothing and, when fresh and well
signed, is processed and cached; every forwarded copy carries exactly
ttl - 1 (and forwarding requires ttl ≥ 2); hence along any relay chain the
hop budget strictly decreases and a chain starting from a message with
ttl = t has at most t hops. -/
theorem claim6_ttl_semantics (shuffle : List String → List String) (now : ℕ)
    (st : GossipState) (msg : GossipMessage) :
    (msg.ttl = 0 → handleIncomingMessage shuffle now st msg = (st, false, [])) ∧
    (msg.ttl = 1 →
      (handleIncomingMessage shuffle now st msg).2.2 = [] ∧
      ((assocFind st.message_cache msg.message_id).isSome = false →
        verifyMessageSignature msg = true →
        (handleIncomingMessage shuffle now st msg).2.1 = true ∧
        (assocFind (handleIncomingMessage shuffle now st msg).1.message_cache
            msg.message_id).isSome = true)) ∧
    (∀ pm ∈ (handleIncomingMessage shuffle now st msg).2.2,
      pm.2.ttl + 1 = msg.ttl ∧ 2 ≤ msg.ttl) ∧
    (∀ (l : List GossipMessage), List.Chain' RelayStep l → 2 ≤ l.length →
      ∀ m0, l.head? = some m0 → l.length ≤ m0.ttl) := by
  refine ⟨?_, ?_, ?_, ?_⟩
  · intro h0
    unfold handleIncomingMessage
    by_cases h1 : (assocFind st.message_cache msg.message_id).isSome = true <;>
      by_cases h2 : verifyMessageSignature msg = true <;>
        simp [h0, h1, h2]
  · intro h0
    have h4 : ¬ 1 < msg.ttl := by omega
    have h3 : msg.ttl ≠ 0 := by omega
    constructor
    · unfold handleIncomingMessage
      by_cases h1 : (assocFind st.message_cache msg.message_id).isSome = true <;>
        by_cases h2 : verifyMessageSignature msg = true <;>
          simp [h1, h2, h3, h4]
    · intro h1 h2
      unfold handleIncomingMessage
      rw [h1]
      simp [h2, h3, h4]
      exact addToCache_lookup_self now st msg
  · intro pm hpm
    rcases handleIncoming_sends_spec shuffle now st msg with hvac | ⟨h2, hs⟩
    · rw [hvac] at hpm
      cases hpm
    · rw [hs] at hpm
      rcases List.mem_map.1 hpm with ⟨q, -, he⟩
      have hm : pm.2 = { msg with ttl := msg.ttl - 1 } := by
        rw [← he]
      have : pm.2.ttl = msg.ttl - 1 := by rw [hm]
      omega
  · intro l hc hlen m0 hhead
    match l, hhead with
    | m :: l2, hhead =>
      have hm : m = m0 := by
        simpa using hhead
      subst hm
      have h1 := relay_chain_length l2 m hc
      have h2 : 2 ≤ l2.length + 1 := by simpa using hlen
      simp only [List.length_cons]
      omega

/-- C6 witness: a ttl-0 message is dropped; a fresh ttl-1 message is
processed; the concrete two-hop relay chain of `gm2` (ttl 2) has length
within the hop budget 2. -/
theorem claim6_ttl_semantics_witness :
    handleIncomingMessage (fun l => l) 0 gossipSt0 gmZ = (gossipSt0, false, []) ∧
    (handleIncomingMessage (fun l => l) 0 gossipSt0 gmA).2.1 = true ∧
    [gm2, gm2fwd].length ≤ gm2.ttl := by
  refine ⟨(claim6_ttl_semantics (fun l => l) 0 gossipSt0 gmZ).1 rfl, ?_, ?_⟩
  · exact (((claim6_ttl_semantics (fun l => l) 0 gossipSt0 gmA).2.1 rfl).2
      (by decide) (by decide)).1
  · refine (claim6_ttl_semantics (fun l => l) 0 gossipSt0 gm2).2.2.2
      [gm2, gm2fwd] ?_ (by decide) gm2 rfl
    refine List.chain'_cons.mpr ⟨?_, List.chain'_singleton _⟩
    exact ⟨fun l => l, 0, ⟨"local", ["p"], [], 0⟩, "p", by decide⟩

/-- C9 counterexample: with the sending peer as the only known peer
(peer_count = 1), `propagate` forwards to nobody, while the claim demands
a target set of size `clamp(ceil(sqrt(1)), 1, 1) = 1`. -/
theorem claim9_counterexample :
    (propagateMessage (fun l => l) "m1" 0 gossipStSelf MessageType.heartbeat
        [] (List.replicate 32 0)).2 = [] ∧
    min (max (ceilSqrt gossipStSelf.peers.length) 1) gossipStSelf.peers.length = 1 := by
  decide

/-- C9 amended: `propagate` wraps the message with ttl = 5, and the
selected forwarding target set has size
`min(clamp(ceil(sqrt(peer_count)), 1, peer_count), #(peers \ {sender}))`
and is drawn from the known peers excluding the sender. -/
theorem claim9_amended (shuffle : List String → List String)
    (hperm : ∀ l : List String, (shuffle l).Perm l)
    (newId : String) (now : ℕ) (localId : String) (mtype : MessageType)
    (payload signature : List ℕ) (st : GossipState) (senderId : String) :
    (createGossipMessage newId now localId mtype payload signature).ttl = 5 ∧
    (selectGossipTargets shuffle st senderId).length =
      min (min (max (ceilSqrt st.peers.length) 1) st.peers.length)
        ((st.peers.filter (fun p => decide (p ≠ senderId))).length) ∧
    ∀ p ∈ selectGossipTargets shuffle st senderId, p ∈ st.peers ∧ p ≠ senderId := by
  refine ⟨rfl, ?_, ?_⟩
  · unfold selectGossipTargets
    by_cases he : (st.peers.filter (fun p => decide (p ≠ senderId))).isEmpty = true
    · rw [if_pos he]
      rw [List.isEmpty_iff] at he
      rw [he]
      simp
    · rw [if_neg he, List.length_take, (hperm _).length_eq]
  · intro p hp
    unfold selectGossipTargets at hp
    by_cases he : (st.peers.filter (fun p => decide (p ≠ senderId))).isEmpty = true
    · rw [if_pos he] at hp
      simp at hp
    · rw [if_neg he] at hp
      have h1 := List.take_subset _ _ hp
      have h2 := (hperm _).mem_iff.1 h1
      have h3 := List.mem_filter.1 h2
      refine ⟨h3.1, ?_⟩
      have h4 := h3.2
      simpa using h4

/-- C4 counterexample: `add_encrypted_order` does not append the
decryption of the ciphertext.  With the empty ciphertext — which the
encryption layer's `decrypt_order` rejects outright at its length check,
for every cipher — an order is still appended instead of being dropped;
and the appended order's trader, pool, side, amount, price and deadline
are independent of the ciphertext contents. -/
theorem claim4_counterexample :
    ((addEncryptedOrder 0 [] "ord" []).map (fun o => o.trader) = ["trader_ord"]) ∧
    decryptOrder (fun _ => none) (fun _ _ => none) [] "ord"
      = Except.error "Invalid encrypted data length" ∧
    ((addEncryptedOrder 0 [] "ord" [1, 2, 3]).map
        (fun o => (o.trader, o.pool_key, o.order_type, o.amount, o.price, o.deadline))
      = (addEncryptedOrder 0 [] "ord" [9]).map
        (fun o => (o.trader, o.pool_key, o.order_type, o.amount, o.price, o.deadline))) := by
  exact ⟨rfl, rfl, rfl⟩

/-- C4 amended: `add_encrypted_order` never decrypts and never fails: it
appends a mock order derived solely from the order id — trader is
"trader_" plus the first eight characters of the id, pool is
"ETH_USDC_3000", the side is always Buy, amount is 1000 + 100·len(id),
price is 2000 + 10·len(id), deadline is one hour out — retaining the
ciphertext verbatim. -/
theorem claim4_amended (now : ℕ) (pending : List DecryptedOrder)
    (orderId : String) (encryptedData : List ℕ) :
    addEncryptedOrder now pending orderId encryptedData =
      pending ++
        [{ id := orderId,
           trader := "trader_" ++ orderId.take 8,
           pool_key := "ETH_USDC_3000",
           order_type := OrderType.buy,
           amount := 1000 + (orderId.utf8ByteSize : ℚ) * 100,
           price := 2000 + (orderId.utf8ByteSize : ℚ) * 10,
           deadline := now + 3600,
           encrypted_data := encryptedData }] := by
  unfold addEncryptedOrder
  rw [ite_self]

/-- C7: both layers round-trip.  For any serializer, cipher and signer
with the standard correctness properties (stated pointwise at the message
being carried), the freshly produced transport envelope passes its own
signature and timestamp gates and `decrypt_message` recovers the message;
and `decrypt_order` on `encrypt_order`'s output recovers the original
trader, pool, side, amount, price and deadline. -/
theorem claim7_roundtrip {α : Type} (ser : α → List ℕ) (deser : List ℕ → Option α)
    (enc : List ℕ → List ℕ → List ℕ) (dec : List ℕ → List ℕ → Option (List ℕ))
    (signer : List ℕ → List ℕ) (newId : String) (nonce : List ℕ) (now : ℕ) (m : α)
    (oser : EncryptedOrderData → List ℕ)
    (odeser : List ℕ → Option EncryptedOrderData)
    (oenc : List ℕ → List ℕ → List ℕ) (odec : List ℕ → List ℕ → Option (List ℕ))
    (ononce : List ℕ) (orderId : String) (od : EncryptedOrderData)
    (hdec : dec nonce (enc nonce (ser m)) = some (ser m))
    (hser : deser (ser m) = some m)
    (hsig : (signer (enc nonce (ser m))).length = 32)
    (honl : ononce.length = 12)
    (hodec : odec ononce (oenc ononce (oser od)) = some (oser od))
    (hoser : odeser (oser od) = some od) :
    decryptMessage deser dec now (encryptMessage ser enc signer newId nonce now m)
      = Except.ok m ∧
    decryptOrder odeser odec (encryptOrder oser oenc ononce od) orderId
      = Except.ok
          ⟨orderId, od.trader, od.pool_key, od.order_type, od.amount, od.price,
            od.deadline, encryptOrder oser oenc ononce od⟩ := by
  constructor
  · have hv : verifySignature (enc nonce (ser m)) (signer (enc nonce (ser m))) = true := by
      unfold verifySignature
      have hne : ¬ (signer (enc nonce (ser m))).isEmpty = true := by
        rw [List.isEmpty_iff]
        intro h0
        rw [h0] at hsig
        exact absurd hsig (by decide)
      rw [if_neg hne, hsig]
      decide
    have ht : ¬ (now + 3600 < now) := by omega
    simp only [decryptMessage, encryptMessage]
    rw [hdec]
    simp [hv, ht, hser]
  · have hlen : ¬ (encryptOrder oser oenc ononce od).length < 12 := by
      unfold encryptOrder
      rw [List.length_append, honl]
      omega
    unfold decryptOrder
    rw [if_neg hlen]
    have htake : (encryptOrder oser oenc ononce od).take 12 = ononce := by
      unfold encryptOrder
      rw [← honl, List.take_left]
    have hdrop : (encryptOrder oser oenc ononce od).drop 12 = oenc ononce (oser od) := by
      unfold encryptOrder
      rw [← honl, List.drop_left]
    rw [htake, hdrop, hodec]
    dsimp only
    rw [hoser]

/-- C7 witness: both round trips instantiated with a concrete toy cipher,
serializer and signer satisfying the correctness hypotheses. -/
theorem claim7_roundtrip_witness :
    decryptMessage (fun l => match l with | [n] => some n | _ => none)
        (fun _ c => some c) 0
        (encryptMessage (fun n => [n]) (fun _ p => p)
          (fun _ => List.replicate 32 0) "id1" (List.replicate 12 0) 0 (5 : ℕ))
      = Except.ok 5 ∧
    decryptOrder (fun _ => some wOd) (fun _ c => some c)
        (encryptOrder (fun _ => [0]) (fun _ p => p) (List.replicate 12 0) wOd)
        "ord1"
      = Except.ok
          ⟨"ord1", wOd.trader, wOd.pool_key, wOd.order_type, wOd.amount,
            wOd.price, wOd.deadline,
            encryptOrder (fun _ => [0]) (fun _ p => p) (List.replicate 12 0) wOd⟩ :=
  claim7_roundtrip (fun n => [n])
    (fun l => match l with | [n] => some n | _ => none)
    (fun _ p => p) (fun _ c => some c) (fun _ => List.replicate 32 0)
    "id1" (List.replicate 12 0) 0 5
    (fun _ => [0]) (fun _ => some wOd) (fun _ p => p) (fun _ c => some c)
    (List.replicate 12 0) "ord1" wOd
    rfl rfl rfl rfl rfl rfl

/-- C9 amended, witness: two peers, outside sender — ttl is 5 and the
target set size matches the amended formula. -/
theorem claim9_amended_witness :
    (createGossipMessage "m1" 0 "local" MessageType.heartbeat [] []).ttl = 5 ∧
    (selectGossipTargets (fun l => l) gossipSt2 "s").length =
      min (min (max (ceilSqrt gossipSt2.peers.length) 1) gossipSt2.peers.length)
        ((gossipSt2.peers.filter (fun p => decide (p ≠ "s"))).length) := by
  have h9 := claim9_amended (fun l => l) (fun l => List.Perm.refl l) "m1" 0 "local"
    MessageType.heartbeat [] [] gossipSt2 "s"
  exact ⟨h9.1, h9.2.1⟩

end EigenVault
